import Mathlib

/-!
# Verification of the announcement webhook (src/index.ts)

Shallow embedding of the TypeScript source in Lean 4, with theorems checking
the natural-language specification against it.

The program is a small HTTP-to-Discord bridge.  The parts embedded here:

* `extractImagesFromDescription` (src/index.ts lines 55-75): scans a markup
  description for `![alt](url)` occurrences using the regex
  `/!\[([^\]\r\n]+)]\(([^)\r\n]+)\)/g`, pushes an attachment per match
  (URL resolved by `new URL(url, baseUrl)`), and replaces each match with
  `[image<N>:<alt>]`.
* `isPrerelease` (lines 51-53) and the embed colour choice (line 154).
* `assert`/`fail` validation (lines 45-49, 122-128).
* `expressJsonErrorHandler` (lines 17-38).
* The announcement route handler (lines 105-181), with the Discord client
  modelled as an environment of lookup functions.

Strings are modelled as `List Char`; JavaScript exceptions as `Option`/
`Except`; absent-or-falsy string fields as `Option String` where `none`
and `some ""` are the falsy values.
-/

/-- Characters allowed inside the alt part of the regex: `[^\]\r\n]`. -/
def isAltChar (c : Char) : Bool :=
  !(c == ']') && !(c == '\r') && !(c == '\n')

/-- Characters allowed inside the url part of the regex: `[^)\r\n]`. -/
def isUrlChar (c : Char) : Bool :=
  !(c == ')') && !(c == '\r') && !(c == '\n')

/-- Attempt to match the regex `!\[([^\]\r\n]+)]\(([^)\r\n]+)\)` at the head
of the input.  Returns `(alt, url, rest)` on success, where `rest` is the
input after the match.  The two character classes exclude their own closing
delimiter, so the greedy `+` deterministically takes the maximal run up to
the first delimiter, which must then be present and preceded by at least one
class character. -/
def matchImage (l : List Char) : Option (List Char × List Char × List Char) :=
  match l with
  | '!' :: '[' :: r =>
    match r.takeWhile isAltChar, r.dropWhile isAltChar with
    | alt@(_ :: _), ']' :: '(' :: r2 =>
      match r2.takeWhile isUrlChar, r2.dropWhile isUrlChar with
      | url@(_ :: _), ')' :: rest => some (alt, url, rest)
      | _, _ => none
    | _, _ => none
  | _ => none

/-- A successful `matchImage` decomposes its input as the literal matched text
followed by the rest, with nonempty alt and url made of class characters. -/
theorem matchImage_eq_some {l alt url rest : List Char}
    (h : matchImage l = some (alt, url, rest)) :
    l = '!' :: '[' :: (alt ++ ']' :: '(' :: (url ++ ')' :: rest)) ∧
      alt ≠ [] ∧ url ≠ [] ∧ alt.all isAltChar ∧ url.all isUrlChar := by
  unfold matchImage at h
  split at h
  · rename_i r
    split at h
    · rename_i a as r2 heq1 heq2
      split at h
      · rename_i u us rest' heq3 heq4
        simp only [Option.some.injEq, Prod.mk.injEq] at h
        obtain ⟨halt, hurl, hrest⟩ := h
        subst halt hurl hrest
        have hr : r = (a :: as) ++ ']' :: '(' :: r2 := by
          rw [← heq1, ← heq2, List.takeWhile_append_dropWhile]
        have hr2 : r2 = (u :: us) ++ ')' :: rest' := by
          rw [← heq3, ← heq4, List.takeWhile_append_dropWhile]
        refine ⟨by rw [hr, hr2], by simp, by simp, ?_, ?_⟩
        · rw [← heq1]
          exact List.all_eq_true.mpr fun c hc => List.mem_takeWhile_imp hc
        · rw [← heq3]
          exact List.all_eq_true.mpr fun c hc => List.mem_takeWhile_imp hc
      · exact absurd h (by simp)
    · exact absurd h (by simp)
  · exact absurd h (by simp)

theorem matchImage_rest_length {l alt url rest : List Char}
    (h : matchImage l = some (alt, url, rest)) : rest.length < l.length := by
  have hd := (matchImage_eq_some h).1
  rw [hd]
  simp [List.length_append]
  omega

/-- One extracted attachment: the resolved URL (`new AttachmentBuilder(resolvedUrl)`)
together with the alt text set by `.setDescription(alt)`. -/
structure Image where
  url : List Char
  altText : List Char
deriving DecidableEq, Repr

/-- The text that replaces the `n`-th match (1-based): the source builds
`'image' + images.length + ':' + alt` and returns it wrapped in brackets,
i.e. `[image<n>:<alt>]`. -/
def placeholder (n : Nat) (alt : List Char) : List Char :=
  '[' :: 'i' :: 'm' :: 'a' :: 'g' :: 'e' :: (Nat.toDigits 10 n ++ ':' :: alt ++ [']'])

/-- Alphabetic first character then alphanumeric / `+` / `-` / `.` characters:
the characters a URL scheme may contain. -/
def isSchemeChar (c : Char) : Bool :=
  c.isAlpha || c.isDigit || c == '+' || c == '-' || c == '.'

/-- Whether the string starts with a URL scheme followed by `:`
(`[A-Za-z][A-Za-z0-9+.-]*:`), which makes the WHATWG URL parser treat it as
absolute. -/
def hasScheme (l : List Char) : Bool :=
  match l with
  | [] => false
  | c :: cs =>
    c.isAlpha &&
      match cs.dropWhile isSchemeChar with
      | ':' :: _ => true
      | _ => false

/-- Everything up to and including the last `/` of the string (used to
resolve a relative reference against the base's directory). -/
def dirOf (l : List Char) : List Char :=
  (l.reverse.dropWhile (fun c => !(c == '/'))).reverse

/-- Modelled from the spec: the URL resolution `new URL(url, baseUrl).toString()`
performed at src/index.ts line 62 is Node's WHATWG `URL` constructor, which is
not part of this repository.  Per the spec, "Relative image URLs are resolved
against the supplied base URL; absolute URLs are passed through unchanged",
and an input the parser cannot interpret as a URL makes the constructor throw
(`none` here).  The model: a url carrying its own scheme is absolute and kept
as-is; otherwise it is resolved against the directory of a hierarchical base
(a base with a scheme and a `/`); a relative url with a base that has no
scheme (unparsable as an absolute URL) throws. -/
def resolveUrl (base url : List Char) : Option (List Char) :=
  if hasScheme url then some url
  else if hasScheme base && base.contains '/' then some (dirOf base ++ url)
  else none

/-- The scanning loop of `description.replace(/!\[([^\]\r\n]+)]\(([^)\r\n]+)\)/g, ...)`
(src/index.ts lines 60-67), fuelled for termination: at each position the
regex either matches (the callback resolves the url — pushing
`{url, altText}` — and the match is replaced by `placeholder`) or the scan
advances one character, passing the character through.  `n` is the number of
images already pushed.  A url the `URL` constructor rejects aborts the whole
call (`none`), as the thrown `TypeError` does in JavaScript.  Any fuel
`≥ length of the input` gives the fuel-free behaviour. -/
def extractAux (resolve : List Char → Option (List Char)) :
    Nat → Nat → List Char → Option (List Char × List Image)
  | _, _, [] => some ([], [])
  | 0, _, _ :: _ => none
  | fuel+1, n, c :: cs =>
    match matchImage (c :: cs) with
    | some (alt, url, rest) =>
      match resolve url with
      | none => none
      | some u =>
        match extractAux resolve fuel (n+1) rest with
        | none => none
        | some (t, imgs) => some (placeholder (n+1) alt ++ t, ⟨u, alt⟩ :: imgs)
    | none =>
      match extractAux resolve fuel n cs with
      | none => none
      | some (t, imgs) => some (c :: t, imgs)

/-- The result `{text, images}` of `extractImagesFromDescription`. -/
structure ExtractResult where
  text : List Char
  images : List Image
deriving DecidableEq, Repr

/-- `extractImagesFromDescription(baseUrl, description)` from src/index.ts
lines 55-75: `none` models the function throwing (a url/baseUrl pair the
`URL` constructor rejects). -/
def extractImagesFromDescription (baseUrl description : List Char) :
    Option ExtractResult :=
  match extractAux (resolveUrl baseUrl) description.length 0 description with
  | none => none
  | some (t, imgs) => some ⟨t, imgs⟩

/-- The number of well-formed image-markup occurrences found by the same
left-to-right, non-overlapping scan the regex performs (the spec's `N`). -/
def countMatchesAux : Nat → List Char → Nat
  | _, [] => 0
  | 0, _ :: _ => 0
  | fuel+1, c :: cs =>
    match matchImage (c :: cs) with
    | some (_, _, rest) => countMatchesAux fuel rest + 1
    | none => countMatchesAux fuel cs

/-- Number of well-formed image-markup occurrences in a description. -/
def countMatches (l : List Char) : Nat := countMatchesAux l.length l

example : extractImagesFromDescription "https://cdn.example/".toList "See ![shot](img.png)".toList
    = some ⟨"See [image1:shot]".toList, [⟨"https://cdn.example/img.png".toList, "shot".toList⟩]⟩ := by
  decide

example : countMatches "See ![shot](img.png) and ![b](u)".toList = 2 := by decide

example : extractImagesFromDescription "nope".toList "![a](b.png)".toList = none := by decide

/-- `startsWithL hay needle`: does `needle` occur at the start of `hay`? -/
def startsWithL : List Char → List Char → Bool
  | _, [] => true
  | [], _ :: _ => false
  | c :: cs, d :: ds => c == d && startsWithL cs ds

/-- `containsL hay needle`: does `needle` occur anywhere in `hay`?  This is
`hay.indexOf(needle) >= 0` in JavaScript. -/
def containsL (hay needle : List Char) : Bool :=
  match hay with
  | [] => startsWithL [] needle
  | _ :: cs => startsWithL hay needle || containsL cs needle

/-- `isPrerelease` from src/index.ts lines 51-53:
`title.indexOf('-pre') >= 0 || title.indexOf('-rc') >= 0`. -/
def isPrerelease (title : List Char) : Bool :=
  containsL title "-pre".toList || containsL title "-rc".toList

/-- The two colours the embed builder can pick at src/index.ts line 154:
`Navy` for prereleases, `Blurple` otherwise. -/
inductive EmbedColor where
  | Navy
  | Blurple
deriving DecidableEq, Repr

/-- `isPrerelease(title) ? 'Navy' : 'Blurple'` (src/index.ts line 154). -/
def embedColor (title : List Char) : EmbedColor :=
  if isPrerelease title then .Navy else .Blurple

/-- A JavaScript `Error`-like value as the error handler sees it: optional
`status` and `statusCode` fields and a message.  Errors created by `fail`
(`new Error(message)`) carry neither status field. -/
structure JsError where
  status : Option Int
  statusCode : Option Int
  message : String
deriving DecidableEq, Repr

/-- `new Error(message)` as thrown by `fail` (src/index.ts lines 40-43). -/
def mkError (msg : String) : JsError := ⟨none, none, msg⟩

/-- An HTTP response: its status and, for error envelopes, the `message`
field of the JSON body (`none` for the empty `204` body). -/
structure HttpResponse where
  status : Int
  message : Option String
deriving DecidableEq, Repr

/-- `err.status ?? err.statusCode ?? 500` (src/index.ts line 18). -/
def jsRawStatus (e : JsError) : Int :=
  e.status.getD (e.statusCode.getD 500)

/-- `expressJsonErrorHandler` from src/index.ts lines 17-38: picks
`err.status ?? err.statusCode ?? 500`, lifts anything below 400 to 500, and
responds with a JSON envelope carrying the error's message. -/
def expressJsonErrorHandler (err : JsError) : HttpResponse :=
  ⟨if jsRawStatus err < 400 then 500 else jsRawStatus err, some err.message⟩

/-- The fields the announcement route reads from path parameters and JSON
body (src/index.ts lines 112-120).  `none` models an absent field, `some ""`
an empty one; both are falsy in the `assert` checks. -/
structure AnnouncementRequest where
  channel : Option String
  topic : Option String
  baseUrl : Option String
  token : Option String
  title : Option String
  link : Option String
  author : Option String
  description : Option String
deriving DecidableEq, Repr

/-- JavaScript falsiness of an optional string field: absent or empty. -/
def falsyStr : Option String → Bool
  | none => true
  | some s => s == ""

/-- `v || ''`: the string value of a field, empty when the field is falsy. -/
def jsOrEmpty : Option String → String
  | none => ""
  | some s => s

/-- The `assert` chain of the announcement route (src/index.ts lines
123-128), in source order; `assert(value, name)` throws
`new Error(name + " is required.")` when the value is falsy (lines 45-49). -/
def validateRequest (r : AnnouncementRequest) : Except JsError Unit :=
  if falsyStr r.baseUrl then .error (mkError "Base url is required.")
  else if falsyStr r.token then .error (mkError "Bot token is required.")
  else if falsyStr r.channel then .error (mkError "Channel ID is required.")
  else if falsyStr r.topic then .error (mkError "Topic ID is required.")
  else if falsyStr r.title then .error (mkError "Post title is required.")
  else if falsyStr r.link then .error (mkError "Post link is required.")
  else .ok ()

/-- The embed plus attachments composed at src/index.ts lines 152-166. -/
structure OutboundMessage where
  title : String
  color : EmbedColor
  url : String
  descriptionText : List Char
  authorName : String
  images : List Image
deriving DecidableEq, Repr

/-- Builds the outbound message: title, colour from `isPrerelease`, link,
transformed description text, `author || 'madtisa'`, and the extracted
attachments (src/index.ts lines 152-166). -/
def composeMessage (title link : String) (author : Option String)
    (extracted : ExtractResult) : OutboundMessage :=
  { title := title
    color := embedColor title.toList
    url := link
    descriptionText := extracted.text
    authorName := if falsyStr author then "madtisa" else jsOrEmpty author
    images := extracted.images }

/-- The Discord client, modelled as an environment: the outcome of
`client.login`, the channel and thread lookups (`none` models the fetch
resolving to nothing), and the outcome of sending a message. -/
structure DiscordEnv where
  loginError : Option JsError
  channels : String → Option String
  threads : String → String → Option String
  send : OutboundMessage → Option JsError

/-- The announcement route handler's pipeline (src/index.ts lines 105-181):
validate, log in, fetch the channel (`fail` when it resolves to nothing),
fetch the topic thread likewise, transform the description (a thrown URL
error aborts), compose the message, send it, and answer `204` with an empty
body. -/
def runAnnouncement (env : DiscordEnv) (r : AnnouncementRequest) :
    Except JsError HttpResponse :=
  match validateRequest r with
  | .error e => .error e
  | .ok _ =>
    match env.loginError with
    | some e => .error e
    | none =>
      match env.channels (jsOrEmpty r.channel) with
      | none => .error (mkError ("Channel with id " ++ jsOrEmpty r.channel ++ " not found"))
      | some _ =>
        match env.threads (jsOrEmpty r.channel) (jsOrEmpty r.topic) with
        | none => .error (mkError ("Topic with id " ++ jsOrEmpty r.topic ++ " not found"))
        | some _ =>
          match extractImagesFromDescription (jsOrEmpty r.baseUrl).toList
              (jsOrEmpty r.description).toList with
          | none => .error (mkError "Invalid URL")
          | some extracted =>
            match env.send (composeMessage (jsOrEmpty r.title) (jsOrEmpty r.link)
                r.author extracted) with
            | some e => .error e
            | none => .ok ⟨204, none⟩

/-- The observable HTTP outcome of the route: a pipeline failure is passed to
`next(err)` and rendered by `expressJsonErrorHandler` (src/index.ts
lines 171-173, 178-180, 184). -/
def handleAnnouncement (env : DiscordEnv) (r : AnnouncementRequest) : HttpResponse :=
  match runAnnouncement env r with
  | .ok resp => resp
  | .error e => expressJsonErrorHandler e

/-- The required-field order the claim states: credential, channelId,
topicId, title, link (with the `assert` names the code uses for each). -/
def requiredFieldsClaimOrder : List ((AnnouncementRequest → Option String) × String) :=
  [(AnnouncementRequest.token, "Bot token"),
   (AnnouncementRequest.channel, "Channel ID"),
   (AnnouncementRequest.topic, "Topic ID"),
   (AnnouncementRequest.title, "Post title"),
   (AnnouncementRequest.link, "Post link")]

/-- First missing required field under the claim's order. -/
def firstMissingClaimed (r : AnnouncementRequest) : Option String :=
  (requiredFieldsClaimOrder.find? (fun p => falsyStr (p.1 r))).map (fun p => p.2)

/-- The required-field order the code actually checks: baseUrl first, then
credential, channelId, topicId, title, link (src/index.ts lines 123-128). -/
def requiredFieldsCodeOrder : List ((AnnouncementRequest → Option String) × String) :=
  [(AnnouncementRequest.baseUrl, "Base url"),
   (AnnouncementRequest.token, "Bot token"),
   (AnnouncementRequest.channel, "Channel ID"),
   (AnnouncementRequest.topic, "Topic ID"),
   (AnnouncementRequest.title, "Post title"),
   (AnnouncementRequest.link, "Post link")]

/-- First missing required field under the code's order. -/
def firstMissingField (r : AnnouncementRequest) : Option String :=
  (requiredFieldsCodeOrder.find? (fun p => falsyStr (p.1 r))).map (fun p => p.2)

/-- A request with every field absent. -/
def reqAllMissing : AnnouncementRequest :=
  ⟨none, none, none, none, none, none, none, none⟩

/-- A fully populated, valid request (the spec's example body). -/
def reqValid : AnnouncementRequest :=
  ⟨some "123", some "456", some "https://cdn.example/", some "t",
   some "v1.0.0", some "https://x/y", none, some "See ![shot](img.png)"⟩

/-- An environment where login, both lookups and the send all succeed. -/
def envOk : DiscordEnv :=
  ⟨none, fun _ => some "announcements", fun _ _ => some "topic", fun _ => none⟩

/-- Like `envOk` but the channel id resolves to nothing. -/
def envNoChannel : DiscordEnv :=
  ⟨none, fun _ => none, fun _ _ => some "topic", fun _ => none⟩

/-- The spec-side reading of "`text` contains the placeholders
`[image<k>:<alt>]..` in order, the `k`-th placeholder corresponding to the
`k`-th image (1-indexed)": the text splits as segments interleaved with the
placeholders of the successive images, starting at index `k`. -/
def placeholdersInOrder : Nat → List Image → List Char → Prop
  | _, [], _ => True
  | k, img :: rest, t =>
      ∃ s t2, t = s ++ placeholder k img.altText ++ t2 ∧
        placeholdersInOrder (k + 1) rest t2

theorem placeholdersInOrder_cons (c : Char) {k : Nat} {imgs : List Image}
    {t : List Char} (h : placeholdersInOrder k imgs t) :
    placeholdersInOrder k imgs (c :: t) := by
  cases imgs with
  | nil => trivial
  | cons img rest =>
    obtain ⟨s, t2, ht, hrec⟩ := h
    exact ⟨c :: s, t2, by rw [ht]; rfl, hrec⟩

/-- Core invariant of the scanning loop: on success, the number of images
equals the number of regex matches, and the output text carries the
placeholders of the images in order, numbered from `n + 1` on. -/
theorem extractAux_spec (resolve : List Char → Option (List Char)) :
    ∀ fuel l n t imgs, l.length ≤ fuel →
      extractAux resolve fuel n l = some (t, imgs) →
      imgs.length = countMatchesAux fuel l ∧ placeholdersInOrder (n + 1) imgs t := by
  intro fuel
  induction fuel using Nat.strong_induction_on with
  | _ fuel ih =>
    intro l n t imgs hlen h
    match l with
    | [] =>
      simp only [extractAux, Option.some.injEq, Prod.mk.injEq] at h
      obtain ⟨ht, himgs⟩ := h
      subst ht himgs
      simp [countMatchesAux, placeholdersInOrder]
    | c :: cs =>
      match fuel with
      | 0 => simp at hlen
      | f + 1 =>
        have hf : f < f + 1 := Nat.lt_succ_self f
        cases hm : matchImage (c :: cs) with
        | some m =>
          obtain ⟨alt, url, rest⟩ := m
          simp only [extractAux, hm] at h
          cases hu : resolve url with
          | none => rw [hu] at h; exact absurd h (by simp)
          | some u =>
            rw [hu] at h
            cases hrec : extractAux resolve f (n + 1) rest with
            | none => rw [hrec] at h; exact absurd h (by simp)
            | some p =>
              obtain ⟨t', imgs'⟩ := p
              rw [hrec] at h
              simp only [Option.some.injEq, Prod.mk.injEq] at h
              obtain ⟨ht, himgs⟩ := h
              subst ht himgs
              have hrl : rest.length ≤ f := by
                have := matchImage_rest_length hm
                simp only [List.length_cons] at this hlen
                omega
              obtain ⟨hlen', hord⟩ := ih f hf rest (n + 1) t' imgs' hrl hrec
              constructor
              · simp [countMatchesAux, hm, hlen']
              · exact ⟨[], t', rfl, hord⟩
        | none =>
          simp only [extractAux, hm] at h
          cases hrec : extractAux resolve f n cs with
          | none => rw [hrec] at h; exact absurd h (by simp)
          | some p =>
            obtain ⟨t', imgs'⟩ := p
            rw [hrec] at h
            simp only [Option.some.injEq, Prod.mk.injEq] at h
            obtain ⟨ht, himgs⟩ := h
            subst ht himgs
            have hcl : cs.length ≤ f := by
              simp only [List.length_cons] at hlen; omega
            obtain ⟨hlen', hord⟩ := ih f hf cs n t' imgs' hcl hrec
            constructor
            · simp [countMatchesAux, hm, hlen']
            · exact placeholdersInOrder_cons c hord

/-- If the scan finds no match anywhere, the loop returns the input unchanged
with no images. -/
theorem extractAux_count_zero (resolve : List Char → Option (List Char)) :
    ∀ fuel l n, l.length ≤ fuel → countMatchesAux fuel l = 0 →
      extractAux resolve fuel n l = some (l, []) := by
  intro fuel
  induction fuel using Nat.strong_induction_on with
  | _ fuel ih =>
    intro l n hlen hcount
    match l with
    | [] => cases fuel <;> rfl
    | c :: cs =>
      match fuel with
      | 0 => simp at hlen
      | f + 1 =>
        cases hm : matchImage (c :: cs) with
        | some m =>
          obtain ⟨alt, url, rest⟩ := m
          simp [countMatchesAux, hm] at hcount
        | none =>
          have hcl : cs.length ≤ f := by
            simp only [List.length_cons] at hlen; omega
          have hc0 : countMatchesAux f cs = 0 := by
            simpa [countMatchesAux, hm] using hcount
          simp [extractAux, hm, ih f (Nat.lt_succ_self f) cs n hcl hc0]

theorem startsWithL_spec (hay needle : List Char) :
    startsWithL hay needle = true ↔ needle <+: hay := by
  induction needle generalizing hay with
  | nil => simp [startsWithL]
  | cons d ds ih =>
    cases hay with
    | nil => simp [startsWithL]
    | cons c cs =>
      simp only [startsWithL, Bool.and_eq_true, beq_iff_eq, List.cons_prefix_cons, ih]
      exact and_congr eq_comm Iff.rfl

theorem containsL_spec (hay needle : List Char) :
    containsL hay needle = true ↔ needle <:+: hay := by
  induction hay with
  | nil =>
    rw [containsL]
    simp [startsWithL_spec]
  | cons c cs ih =>
    rw [containsL]
    simp [startsWithL_spec, ih, List.infix_cons_iff]

theorem validateRequest_error_noStatus {r : AnnouncementRequest} {e : JsError}
    (h : validateRequest r = .error e) : e.status = none ∧ e.statusCode = none := by
  unfold validateRequest at h
  repeat' split at h
  all_goals cases h
  all_goals exact ⟨rfl, rfl⟩

/-- A validation failure reaches `next(error)` and is rendered by the error
handler: the thrown `Error` carries no status, so the envelope's status is
500 and its message is the `assert` message. -/
theorem handleAnnouncement_validation_error {env : DiscordEnv}
    {r : AnnouncementRequest} {e : JsError} (h : validateRequest r = .error e) :
    handleAnnouncement env r = ⟨500, some e.message⟩ := by
  have hs := validateRequest_error_noStatus h
  unfold handleAnnouncement runAnnouncement
  rw [h]
  simp [expressJsonErrorHandler, jsRawStatus, hs.1, hs.2]

/-- Claim C1: for every description whose extraction succeeds, the images
list has exactly as many entries as there are well-formed image-markup
occurrences (the left-to-right, non-overlapping matches of the pattern), and
the output text carries the placeholders `[image1:alt] .. [imageN:alt]` in
that same left-to-right order, the `N`th placeholder corresponding to the
`N`th entry of the images list. -/
theorem C1_extraction_order (baseUrl description : List Char) (r : ExtractResult)
    (h : extractImagesFromDescription baseUrl description = some r) :
    r.images.length = countMatches description ∧
      placeholdersInOrder 1 r.images r.text := by
  unfold extractImagesFromDescription at h
  cases hx : extractAux (resolveUrl baseUrl) description.length 0 description with
  | none => rw [hx] at h; exact absurd h (by simp)
  | some p =>
    rw [hx] at h
    obtain ⟨t, imgs⟩ := p
    simp only [Option.some.injEq] at h
    subst h
    exact extractAux_spec (resolveUrl baseUrl) description.length description 0 t imgs
      le_rfl hx

/-- Witness for C1 on the spec's example description. -/
theorem C1_extraction_order_witness :
    (⟨"See [image1:shot]".toList,
        [⟨"https://cdn.example/img.png".toList, "shot".toList⟩]⟩ :
      ExtractResult).images.length = countMatches "See ![shot](img.png)".toList ∧
      placeholdersInOrder 1
        [⟨"https://cdn.example/img.png".toList, "shot".toList⟩]
        "See [image1:shot]".toList :=
  C1_extraction_order "https://cdn.example/".toList "See ![shot](img.png)".toList
    ⟨"See [image1:shot]".toList,
      [⟨"https://cdn.example/img.png".toList, "shot".toList⟩]⟩ (by decide)

/-- Claim C2, counterexample: the claim's order starts at the credential, but
with every field missing the code names the base url first — the `assert`
chain checks `baseUrl` before `token` (src/index.ts lines 123-124). -/
theorem C2_counterexample :
    firstMissingClaimed reqAllMissing = some "Bot token" ∧
      validateRequest reqAllMissing = .error (mkError "Base url is required.") ∧
      ("Base url is required." : String) ≠ "Bot token is required." :=
  ⟨rfl, rfl, by decide⟩

/-- Claim C2 (amended): validation fails with the `assert` error naming the
first missing required field in the fixed source order baseUrl, credential,
channelId, topicId, title, link, and succeeds when none is missing; the
order is fixed, so the message is deterministic for a given input. -/
theorem C2_first_missing_field (r : AnnouncementRequest) :
    validateRequest r =
      (match firstMissingField r with
       | some name => .error (mkError (name ++ " is required."))
       | none => .ok ()) := by
  unfold validateRequest firstMissingField requiredFieldsCodeOrder
  cases hb : falsyStr r.baseUrl <;> cases ht : falsyStr r.token <;>
    cases hc : falsyStr r.channel <;> cases hp : falsyStr r.topic <;>
    cases hl : falsyStr r.title <;> cases hk : falsyStr r.link <;>
    simp [List.find?, hb, ht, hc, hp, hl, hk]

/-- Claim C3, counterexample: a missing-field failure and a
channel-not-found failure are both surfaced with HTTP status 500 — not a
4xx / 404-class status — because `fail` throws a plain `Error` carrying no
status and the error handler defaults to 500. -/
theorem C3_counterexample :
    ((handleAnnouncement envOk reqAllMissing).status = 500 ∧
      ¬ (400 ≤ (handleAnnouncement envOk reqAllMissing).status ∧
          (handleAnnouncement envOk reqAllMissing).status ≤ 499)) ∧
    ((handleAnnouncement envNoChannel reqValid).status = 500 ∧
      (handleAnnouncement envNoChannel reqValid).message =
        some "Channel with id 123 not found" ∧
      ¬ (400 ≤ (handleAnnouncement envNoChannel reqValid).status ∧
          (handleAnnouncement envNoChannel reqValid).status ≤ 499)) := by
  decide

/-- Claim C3 (amended): a request failing validation is answered with status
500 and the `assert` message, and a request whose channel id resolves to
nothing is answered with status 500 and a message naming the channel id —
`fail` throws plain `Error`s with no status, so `expressJsonErrorHandler`
falls back to 500 in both cases. -/
theorem C3_failures_are_500 (env : DiscordEnv) (r : AnnouncementRequest) :
    (∀ e, validateRequest r = .error e →
        handleAnnouncement env r = ⟨500, some e.message⟩) ∧
    (validateRequest r = .ok () → env.loginError = none →
      env.channels (jsOrEmpty r.channel) = none →
      handleAnnouncement env r =
        ⟨500, some ("Channel with id " ++ jsOrEmpty r.channel ++ " not found")⟩) := by
  constructor
  · intro e he
    exact handleAnnouncement_validation_error he
  · intro hv hl hc
    unfold handleAnnouncement runAnnouncement
    rw [hv, hl, hc]
    simp [expressJsonErrorHandler, jsRawStatus, mkError]

/-- Witness for C3 (amended) at concrete requests. -/
theorem C3_failures_are_500_witness :
    handleAnnouncement envOk reqAllMissing = ⟨500, some "Base url is required."⟩ ∧
      handleAnnouncement envNoChannel reqValid =
        ⟨500, some ("Channel with id " ++ "123" ++ " not found")⟩ := by
  constructor
  · exact (C3_failures_are_500 envOk reqAllMissing).1
      (mkError "Base url is required.") rfl
  · exact (C3_failures_are_500 envNoChannel reqValid).2 rfl rfl rfl

/-- Claim C4: an image URL carrying its own scheme (absolute) is passed
through unchanged for any base; a scheme-less (relative) URL is resolved
against the directory of the base URL; and on the spec's scenario — base
`https://cdn.example/` and description `See ![shot](img.png)` — the extracted
image url is `https://cdn.example/img.png` and the text is `See [image1:shot]`. -/
theorem C4_url_resolution :
    (∀ base url, hasScheme url = true → resolveUrl base url = some url) ∧
    (∀ base url, hasScheme url = false → hasScheme base = true →
        base.contains '/' = true → resolveUrl base url = some (dirOf base ++ url)) ∧
    extractImagesFromDescription "https://cdn.example/".toList "See ![shot](img.png)".toList =
      some ⟨"See [image1:shot]".toList,
        [⟨"https://cdn.example/img.png".toList, "shot".toList⟩]⟩ := by
  refine ⟨?_, ?_, by decide⟩
  · intro base url h
    simp [resolveUrl, h]
  · intro base url h hb hsl
    unfold resolveUrl
    rw [if_neg (by simp [h]), if_pos (by simp only [hb, hsl, Bool.true_and])]

/-- Witness for C4: an absolute url is untouched, a relative one is joined
to the base's directory. -/
theorem C4_url_resolution_witness :
    resolveUrl "https://cdn.example/".toList "https://other.host/a.png".toList =
        some "https://other.host/a.png".toList ∧
      resolveUrl "https://cdn.example/".toList "img.png".toList =
        some (dirOf "https://cdn.example/".toList ++ "img.png".toList) :=
  ⟨C4_url_resolution.1 "https://cdn.example/".toList "https://other.host/a.png".toList
      (by decide),
   C4_url_resolution.2.1 "https://cdn.example/".toList "img.png".toList
      (by decide) (by decide) (by decide)⟩

/-- Claim C5: a description with zero image-markup occurrences is returned
unchanged with an empty images list; the empty description yields empty text
and no images; malformed markup — an unclosed parenthesis, or a space
between `]` and `(` — is not matched and passes through as literal text. -/
theorem C5_no_match_identity :
    (∀ base description, countMatches description = 0 →
        extractImagesFromDescription base description = some ⟨description, []⟩) ∧
    (∀ base, extractImagesFromDescription base [] = some ⟨[], []⟩) ∧
    (countMatches "a ![unbalanced](paren".toList = 0 ∧
      extractImagesFromDescription "https://cdn.example/".toList
          "a ![unbalanced](paren".toList =
        some ⟨"a ![unbalanced](paren".toList, []⟩) ∧
    (countMatches "br ![alt] (url)".toList = 0 ∧
      extractImagesFromDescription "https://cdn.example/".toList
          "br ![alt] (url)".toList =
        some ⟨"br ![alt] (url)".toList, []⟩) := by
  refine ⟨?_, ?_, ⟨by decide, by decide⟩, by decide, by decide⟩
  · intro base description h
    unfold extractImagesFromDescription
    rw [extractAux_count_zero (resolveUrl base) description.length description 0 le_rfl h]
  · intro base
    rfl

/-- Witness for C5 on a concrete description without image markup. -/
theorem C5_no_match_identity_witness :
    extractImagesFromDescription "https://cdn.example/".toList "no images here".toList =
      some ⟨"no images here".toList, []⟩ :=
  C5_no_match_identity.1 "https://cdn.example/".toList "no images here".toList (by decide)

/-- Claim C6: for every title, the embed colour is the prerelease colour
(`Navy`) exactly when the title contains the substring `-pre` or the
substring `-rc` anywhere, and the default colour (`Blurple`) when it
contains neither. -/
theorem C6_prerelease_color (title : List Char) :
    (embedColor title = .Navy ↔
      ("-pre".toList <:+: title ∨ "-rc".toList <:+: title)) ∧
    (embedColor title = .Blurple ↔
      ¬ ("-pre".toList <:+: title ∨ "-rc".toList <:+: title)) := by
  have h : isPrerelease title = true ↔
      ("-pre".toList <:+: title ∨ "-rc".toList <:+: title) := by
    simp [isPrerelease, containsL_spec]
  unfold embedColor
  split
  · rename_i hp
    exact ⟨⟨fun _ => h.mp hp, fun _ => rfl⟩,
           ⟨fun hn => EmbedColor.noConfusion hn, fun hn => absurd (h.mp hp) hn⟩⟩
  · rename_i hp
    have hx : ¬ ("-pre".toList <:+: title ∨ "-rc".toList <:+: title) :=
      fun hxx => hp (h.mpr hxx)
    exact ⟨⟨fun hn => EmbedColor.noConfusion hn, fun hxx => absurd hxx hx⟩,
           ⟨fun _ => hx, fun _ => rfl⟩⟩

/-- Witness for C6 at a prerelease and a plain title. -/
theorem C6_prerelease_color_witness :
    embedColor "v1.0.0-rc1".toList = .Navy ∧
      embedColor "v1.0.0".toList = .Blurple :=
  ⟨(C6_prerelease_color "v1.0.0-rc1".toList).1.mpr (by decide),
   (C6_prerelease_color "v1.0.0".toList).2.mpr (by decide)⟩

/-- Claim C7: a request in which all required fields are valid, and for
which login, channel lookup, topic lookup, description extraction and the
downstream send all succeed, is answered with status 204 and an empty body. -/
theorem C7_success_204 (env : DiscordEnv) (r : AnnouncementRequest)
    (chName thName : String) (extracted : ExtractResult)
    (hv : validateRequest r = .ok ())
    (hl : env.loginError = none)
    (hc : env.channels (jsOrEmpty r.channel) = some chName)
    (ht : env.threads (jsOrEmpty r.channel) (jsOrEmpty r.topic) = some thName)
    (he : extractImagesFromDescription (jsOrEmpty r.baseUrl).toList
        (jsOrEmpty r.description).toList = some extracted)
    (hs : env.send (composeMessage (jsOrEmpty r.title) (jsOrEmpty r.link)
        r.author extracted) = none) :
    handleAnnouncement env r = ⟨204, none⟩ := by
  unfold handleAnnouncement runAnnouncement
  rw [hv, hl, hc, ht, he]
  dsimp only
  rw [hs]

/-- Witness for C7 on the spec's example request against a healthy
environment. -/
theorem C7_success_204_witness : handleAnnouncement envOk reqValid = ⟨204, none⟩ :=
  C7_success_204 envOk reqValid "announcements" "topic"
    ⟨"See [image1:shot]".toList, [⟨"https://cdn.example/img.png".toList, "shot".toList⟩]⟩
    rfl rfl rfl rfl (by decide) rfl

/-- Claim C8: the description transformer is deterministic — two runs on the
same description and base URL produce identical `{text, images}` outcomes
(the embedding is a pure function: no randomness or network input appears in
its definition). -/
theorem C8_deterministic (baseUrl description : List Char)
    (r1 r2 : Option ExtractResult)
    (h1 : r1 = extractImagesFromDescription baseUrl description)
    (h2 : r2 = extractImagesFromDescription baseUrl description) :
    r1 = r2 :=
  h1.trans h2.symm

/-- Witness for C8: two runs on the spec's example input agree. -/
theorem C8_deterministic_witness :
    (extractImagesFromDescription "https://cdn.example/".toList
        "See ![shot](img.png)".toList) =
      (extractImagesFromDescription "https://cdn.example/".toList
        "See ![shot](img.png)".toList) :=
  C8_deterministic "https://cdn.example/".toList "See ![shot](img.png)".toList _ _ rfl rfl

/-- Claim C9: the transformer is not total — `![a](b.png)` is a well-formed
occurrence (the markup count is 1), yet with base url `nope`, which the URL
parser cannot use as a base for the relative `b.png`, the extraction throws
(`none`) instead of returning a result. -/
theorem C9_extraction_not_total :
    countMatches "![a](b.png)".toList = 1 ∧
      extractImagesFromDescription "nope".toList "![a](b.png)".toList = none := by
  decide

/-- Claim C10: every error rendered by `expressJsonErrorHandler` gets a
status of at least 400; an effective status (`status ?? statusCode ?? 500`)
below 400 is surfaced as 500, and an error carrying neither field is
surfaced as 500 — an error envelope is never sent with a success-class
status. -/
theorem C10_error_status_at_least_400 (e : JsError) :
    400 ≤ (expressJsonErrorHandler e).status ∧
    (jsRawStatus e < 400 → (expressJsonErrorHandler e).status = 500) ∧
    (e.status = none → e.statusCode = none →
      (expressJsonErrorHandler e).status = 500) := by
  refine ⟨?_, ?_, ?_⟩
  · unfold expressJsonErrorHandler
    dsimp only
    split <;> omega
  · intro h
    unfold expressJsonErrorHandler
    rw [if_pos h]
  · intro h1 h2
    unfold expressJsonErrorHandler
    simp [jsRawStatus, h1, h2]

/-- Witness for C10: a success-class `status: 200` error is surfaced as 500,
and a field-less error gets a status of at least 400. -/
theorem C10_error_status_witness :
    (expressJsonErrorHandler ⟨some 200, some 404, "x"⟩).status = 500 ∧
      400 ≤ (expressJsonErrorHandler ⟨none, none, "boom"⟩).status :=
  ⟨(C10_error_status_at_least_400 ⟨some 200, some 404, "x"⟩).2.1 (by decide),
   (C10_error_status_at_least_400 ⟨none, none, "boom"⟩).1⟩
